import Mathlib

/-!
# Framed message transport (`network`): header codec and connection read/write paths

A shallow embedding of `header.go` and of the read loop, write path and pub/sub
subscriber of `pipe.go`.

Conventions of the embedding:

* a byte is a `Nat` below 256; a byte slice is a `List Nat`;
* `uint16` / `uint32` values are `Nat`s, reduced `% 2 ^ 16` / `% 2 ^ 32` where the Go code
  converts or can overflow;
* `time.Time` and `time.Duration` are counted in nanoseconds;
* the `net.Conn` of a `Pipe` is an explicit state (`Conn`): the bytes pending on the wire,
  the number of bytes each of the next reads returns, the bytes written, the deadlines and
  the calls made. The embedding follows one endpoint while its peer writes nothing more, so
  a read with nothing pending runs into its deadline and fails;
* the goroutines started with `go this.handle(...)` are recorded as the list of the frames
  passed to them;
* a Go `panic` is an explicit `Fault`;
* the package constants `TLinger`, `TPing`, `TPong`, `TPubSub` and `MaxChunk` are parameters
  (`Config`), and so is `json.Unmarshal`; of the emitter only the call of `Emit` and the
  panic of its map access on a key that cannot be hashed are modelled.
-/

namespace Network

/-! ## header.go -/

/-- The decoded header of `header.go`: `type header struct { data []byte }`. -/
structure Header where
  data : List Nat
  deriving DecidableEq, Repr

/-- The function `binary.BigEndian.PutUint16`: `b[0] = byte(v >> 8); b[1] = byte(v)`. -/
def putUint16 (v : Nat) : List Nat :=
  [v / 2 ^ 8 % 256, v % 256]

/-- The function `binary.BigEndian.PutUint32`:
`b[0] = byte(v >> 24); b[1] = byte(v >> 16); b[2] = byte(v >> 8); b[3] = byte(v)`. -/
def putUint32 (v : Nat) : List Nat :=
  [v / 2 ^ 24 % 256, v / 2 ^ 16 % 256, v / 2 ^ 8 % 256, v % 256]

/-- The function `binary.BigEndian.Uint16`: `uint16(b[1]) | uint16(b[0])<<8`
(on bytes the bitwise or of the two shifted operands is their sum). -/
def uint16 (b : List Nat) : Nat :=
  b.getD 1 0 + b.getD 0 0 * 2 ^ 8

/-- The function `binary.BigEndian.Uint32`:
`uint32(b[3]) | uint32(b[2])<<8 | uint32(b[1])<<16 | uint32(b[0])<<24`. -/
def uint32 (b : List Nat) : Nat :=
  b.getD 3 0 + b.getD 2 0 * 2 ^ 8 + b.getD 1 0 * 2 ^ 16 + b.getD 0 0 * 2 ^ 24

/-- The function `createHeader(typ uint16, chunk uint32) []byte`. -/
def createHeader (typ chunk : Nat) : List Nat :=
  let header : List Nat := []
  let typeBytes := putUint16 typ
  let chunkBytes := putUint32 chunk
  let header := header ++ [0x1F, 0xFA]
  let header := header ++ typeBytes
  let header := header ++ chunkBytes
  header

/-- The function `headerFrom(d []byte) (h *header, err error)`. -/
def headerFrom (d : List Nat) : Except String Header :=
  if d.length < 8 then
    .error "Header not to size."
  else
    .ok ⟨d⟩

/-- The method `isValid`: `h.data[0] == 0x1F && h.data[1] == 0xFA`. -/
def Header.isValid (h : Header) : Bool :=
  h.data.getD 0 0 == 0x1F && h.data.getD 1 0 == 0xFA

/-- The method `getType`: `binary.BigEndian.Uint16(h.data[2:4])`. -/
def Header.getType (h : Header) : Nat :=
  uint16 ((h.data.drop 2).take 2)

/-- The method `chunkSize`: `binary.BigEndian.Uint32(h.data[4:])`. -/
def Header.chunkSize (h : Header) : Nat :=
  uint32 (h.data.drop 4)


/-! ## pipe.go: constants -/

/-- Package constants used by `pipe.go` whose declarations are not part of the translated
sources: the reserved frame types and the ceiling on an outgoing payload. They are taken as
parameters. -/
structure Config where
  TLinger : Nat
  TPing : Nat
  TPong : Nat
  TPubSub : Nat
  MaxChunk : Nat
  deriving DecidableEq, Repr

/-- The constant `writeTimeout = 1 * time.Minute`, in nanoseconds. -/
def writeTimeout : Nat := 1 * 60000000000

/-- The constant `minTimeout = 15 * time.Second`, in nanoseconds. -/
def minTimeout : Nat := 15 * 1000000000

/-- The constant `maxTimeout = 2 * time.Minute`, in nanoseconds. -/
def maxTimeout : Nat := 2 * 60000000000

/-- The constant `pingInterval = 1 * time.Minute`, in nanoseconds. -/
def pingInterval : Nat := 1 * 60000000000

/-! ## The underlying `net.Conn` -/

/-- A call made on the underlying `net.Conn`, recorded with the deadline in force when the
call is made: `Read` with the length of the buffer passed and the read deadline, `Write`
with the bytes passed and the write deadline, `Close`. -/
inductive Call where
  | read (asked : Nat) (readDeadline : Option Nat)
  | write (b : List Nat) (writeDeadline : Option Nat)
  | close
  deriving DecidableEq, Repr

/-- State of the underlying `net.Conn` as seen by one endpoint.

* `incoming`: the bytes the peer has put on the wire and this side has not read yet;
* `sched`: how many bytes each of the next `Read` calls returns (clamped to the legal range,
  see `Conn.Read`); once exhausted a `Read` returns as many bytes as it can;
* `outgoing`: the bytes this side has written;
* `readDeadline`, `writeDeadline`: the deadlines last set, as absolute times;
* `calls`: the calls made so far, oldest first. -/
structure Conn where
  incoming : List Nat
  sched : List Nat
  outgoing : List Nat
  closed : Bool
  readDeadline : Option Nat
  writeDeadline : Option Nat
  calls : List Call
  deriving DecidableEq, Repr

/-- The method `net.Conn.SetReadDeadline(t)`; it fails, changing nothing, on a closed
connection. Every caller in `pipe.go` drops the returned error. -/
def Conn.SetReadDeadline (c : Conn) (t : Nat) : Conn :=
  if c.closed then c else { c with readDeadline := some t }

/-- The method `net.Conn.Read(buf)` with `len(buf) = k`: fails on a closed connection and when
no byte arrives before the deadline; otherwise returns the next `count` pending bytes
(`buf[:count]`), where `count` is what `sched` says, kept between 1 and the smaller of `k`
and the number of pending bytes. -/
def Conn.Read (c : Conn) (k : Nat) : Except String (List Nat) × Conn :=
  let c := { c with calls := c.calls ++ [Call.read k c.readDeadline] }
  if c.closed then
    (.error "use of closed network connection", c)
  else if c.incoming.length = 0 then
    (.error "i/o timeout", c)
  else
    let avail := min k c.incoming.length
    let count := match c.sched with
      | [] => avail
      | s :: _ => min (max 1 s) avail
    (.ok (c.incoming.take count),
      { c with incoming := c.incoming.drop count, sched := c.sched.tail })

/-- The method `net.Conn.Write(b)`: fails on a closed connection, otherwise puts all of `b` on
the wire and returns `len(b)`. -/
def Conn.Write (c : Conn) (b : List Nat) : (Nat × Option String) × Conn :=
  let c := { c with calls := c.calls ++ [Call.write b c.writeDeadline] }
  if c.closed then
    ((0, some "use of closed network connection"), c)
  else
    ((b.length, none), { c with outgoing := c.outgoing ++ b })

/-- The method `net.Conn.Close()`; the error of a second close is dropped by `Pipe.Close`'s
callers in the read loop. -/
def Conn.Close (c : Conn) : Conn :=
  { c with calls := c.calls ++ [Call.close], closed := true }

/-! ## The `Pipe` -/

/-- A Go run-time panic. `indexOutOfRange` is the bounds panic of an index or slice
expression (`a[0]`, `a[1:]`); `hashOfUnhashableType` is the panic of a map access whose
key, an `interface{}`, holds a slice or a map. -/
inductive Fault where
  | closeOfClosedChannel
  | sendOnClosedChannel
  | indexOutOfRange
  | nilDereference
  | hashOfUnhashableType
  deriving DecidableEq, Repr

/-- The channel `pongs chan time.Duration`, made with capacity 1. -/
structure Chan where
  closed : Bool
  buf : List Int
  deriving DecidableEq, Repr

/-- Result of the send statement `ch <- v` on a channel of capacity 1. -/
inductive Sent where
  | done (ch : Chan)
  | blocks
  | panics
  deriving DecidableEq, Repr

/-- The send statement `ch <- v`: panics on a closed channel, blocks while the one slot is
taken, otherwise stores `v`. -/
def Chan.send (ch : Chan) (v : Int) : Sent :=
  if ch.closed then .panics
  else if ch.buf.length ≥ 1 then .blocks
  else .done { ch with buf := ch.buf ++ [v] }

/-- The struct `Pipe`. `now` is the reading of `time.Now()`; `handled` lists, oldest first,
the frames passed to `go this.handle(u, b)`, each of which calls every subscriber of
`listeners` with `(this, u, b)`; `closeCalls` counts the calls of `Close`. -/
structure Pipe where
  conn : Conn
  now : Nat
  pongStart : Nat
  linger : Bool
  pongs : Chan
  handled : List (Nat × List Nat)
  closeCalls : Nat
  deriving DecidableEq, Repr

/-- How a call of `routine` ends. -/
inductive Outcome where
  | returned
  | panicked (f : Fault)
  | blocked
  | outOfFuel
  deriving DecidableEq, Repr

/-- The method `setReadDeadLine(d)`: `c.conn.SetReadDeadline(time.Now().Add(d))`. -/
def Pipe.setReadDeadLine (c : Pipe) (d : Nat) : Pipe :=
  { c with conn := c.conn.SetReadDeadline (c.now + d) }

/-- The method `setWriteDeadLine()`: `c.conn.SetReadDeadline(time.Now().Add(writeTimeout))`. -/
def Pipe.setWriteDeadLine (c : Pipe) : Pipe :=
  { c with conn := c.conn.SetReadDeadline (c.now + writeTimeout) }

/-- The method `time.Time.Sub`: the difference `t - u` as a `time.Duration`, an `int64` count
of nanoseconds, kept at the largest or smallest `Duration` when it does not fit. -/
def timeSub (t u : Nat) : Int :=
  let d : Int := (t : Int) - (u : Int)
  if d > 9223372036854775807 then 9223372036854775807
  else if d < -9223372036854775808 then -9223372036854775808
  else d

/-- The loop `for transfer < want { ... }` of `readData`; `none` when `fuel` iterations do
not finish it. `transfer` is a `uint32`. -/
def readLoop (want : Nat) : Nat → Nat → List Nat → Pipe →
    Option (Except String (List Nat) × Pipe)
  | fuel, transfer, buffer, c =>
    if transfer < want then
      match fuel with
      | 0 => none
      | fuel + 1 =>
        let take := want
        let take := if take > 512 then 512 else take
        let c := c.setReadDeadLine minTimeout
        let (r, conn) := c.conn.Read take
        let c := { c with conn := conn }
        match r with
        | .error err => some (.error err, c)
        | .ok buf =>
          readLoop want fuel ((transfer + buf.length) % 2 ^ 32) (buffer ++ buf) c
    else
      some (.ok buffer, c)

/-- The method `readData(want uint32) ([]byte, error)`. Every iteration of its loop that does
not return takes at least one pending byte, so `len(incoming) + 1` iterations finish it
(`readData_isSome`). -/
def Pipe.readData (c : Pipe) (want : Nat) : Option (Except String (List Nat) × Pipe) :=
  let buffer : List Nat := []
  let transfer := 0
  let c := if c.linger then c.setReadDeadLine maxTimeout else c.setReadDeadLine minTimeout
  readLoop want (c.conn.incoming.length + 1) transfer buffer c

/-- The method `writeData(b []byte) (int, error)`. -/
def Pipe.writeData (c : Pipe) (b : List Nat) : (Nat × Option String) × Pipe :=
  let c := c.setWriteDeadLine
  let (r, conn) := c.conn.Write b
  (r, { c with conn := conn })

/-- The method `pong()`: `c.writeData(createHeader(TPong, 0))`, result dropped. -/
def Pipe.pong (cfg : Config) (c : Pipe) : Pipe :=
  (c.writeData (createHeader cfg.TPong 0)).2

/-- The method `Close()`: `close(c.pongs)`, which panics on a closed channel, then
`c.conn.Close()`. -/
def Pipe.Close (c : Pipe) : Pipe × Option Fault :=
  let c := { c with closeCalls := c.closeCalls + 1 }
  if c.pongs.closed then
    (c, some .closeOfClosedChannel)
  else
    let c := { c with pongs := { c.pongs with closed := true } }
    ({ c with conn := c.conn.Close }, none)

/-- The method `Linger()`. -/
def Pipe.Linger (cfg : Config) (c : Pipe) : Option String × Pipe :=
  let c := { c with linger := true }
  let (r, c) := c.writeData (createHeader cfg.TLinger 0)
  (r.2, c)

/-- The method `Ping()`; the returned channel is the pipe's `pongs`. -/
def Pipe.Ping (cfg : Config) (c : Pipe) : Option String × Pipe :=
  let c := { c with pongStart := c.now }
  let (r, c) := c.writeData (createHeader cfg.TPing 0)
  (r.2, c)

/-- The method `Write(typ uint16, chunk []byte) (int, error)`. -/
def Pipe.Write (cfg : Config) (c : Pipe) (typ : Nat) (chunk : List Nat) :
    (Nat × Option String) × Pipe :=
  let le := chunk.length
  if le > cfg.MaxChunk then
    ((0, some "Chunk size overflows header buffer."), c)
  else if le = 0 then
    ((0, some "Refusing to send a chunk of size 0."), c)
  else
    match c.writeData (createHeader typ (le % 2 ^ 32)) with
    | ((_, some err), c) => ((0, some err), c)
    | ((_, none), c) => c.writeData chunk

/-- The method `routine()`, one recursive call per frame; `fuel` bounds the depth of the
recursion, and more fuel than there are pending bytes is never used up
(`routine_terminates`). `headerFrom` returns a nil header with its error, which `routine`
drops: calling `isValid` on it would dereference nil. -/
def routine (cfg : Config) : Nat → Pipe → Pipe × Outcome
  | 0, p => (p, .outOfFuel)
  | fuel + 1, p =>
    match p.readData 8 with
    | none => (p, .outOfFuel)
    | some (.error _, p) =>
      match p.Close with
      | (p, some f) => (p, .panicked f)
      | (p, none) => (p, .returned)
    | some (.ok hdr, p) =>
      match headerFrom hdr with
      | .error _ => (p, .panicked .nilDereference)
      | .ok header =>
        match (if !header.isValid then p.Close else (p, none)) with
        | (p, some f) => (p, .panicked f)
        | (p, none) =>
          if header.getType = cfg.TLinger then
            routine cfg fuel { p with linger := true }
          else if header.getType = cfg.TPing then
            routine cfg fuel (p.pong cfg)
          else if header.getType = cfg.TPong then
            match p.pongs.send (timeSub p.now p.pongStart) with
            | .panics => (p, .panicked .sendOnClosedChannel)
            | .blocks => (p, .blocked)
            | .done ch => routine cfg fuel { p with pongs := ch }
          else
            match p.readData header.chunkSize with
            | none => (p, .outOfFuel)
            | some (r, p) =>
              match (match r with
                | .error _ => (([] : List Nat), p.Close)
                | .ok chunk => (chunk, (p, none))) with
              | (_, p, some f) => (p, .panicked f)
              | (chunk, p, none) =>
                routine cfg fuel { p with handled := p.handled ++ [(header.getType, chunk)] }

/-! ## The pub/sub subscriber -/

/-- A value that `json.Unmarshal` stores in an `interface{}`: `nil`, a `bool`, a `float64`
(kept as the text of the JSON number), a `string`, a `[]interface{}` or a
`map[string]interface{}`. -/
inductive Value where
  | null
  | bool (b : Bool)
  | number (text : String)
  | string (s : String)
  | array (elements : List Value)
  | object (fields : List (String × Value))

/-- Whether Go can hash the value as a map key: slices and maps cannot be hashed. -/
def Value.hashable : Value → Bool
  | .array _ => false
  | .object _ => false
  | _ => true

/-- An argument passed to `Emission.Emit`: the pipe itself (`this`) or a decoded value. -/
inductive Arg where
  | pipe
  | val (a : Value)

/-- One call `Emission.Emit(event, arguments...)`. -/
structure EmitCall where
  event : Value
  arguments : List Arg

/-- What a call of `pubSub` did: the calls of `Emission.Emit` it made, in order, and the
panic that ended it, if any. -/
structure Emitted where
  calls : List EmitCall
  fault : Option Fault

/-- The method `Emit(event, arguments...)` of the emitter, as far as its caller is
concerned: the call is recorded; it looks `event` up in the emitter's map of listeners,
a `map[interface{}][]reflect.Value`, and that access panics when `event` holds a slice or
a map. The listeners it finds are run in goroutines of their own. -/
def Emission.Emit (event : Value) (arguments : List Arg) : Emitted :=
  { calls := [⟨event, arguments⟩],
    fault := if event.hashable then none else some .hashOfUnhashableType }

/-- The method `pubSub(sender, typ, chunk)`. `unmarshal chunk` stands for
`json.Unmarshal(chunk, &a)` with `a` of type `[]interface{}`: the decoded elements, or an
error, in which case `a` keeps its initial value and the error is dropped. On an empty `a`
the second call of `Emit` is not reached: the bounds panic of its operands `a[0]` and
`a[1:]` comes first. -/
def pubSub (cfg : Config) (unmarshal : List Nat → Except String (List Value))
    (typ : Nat) (chunk : List Nat) : Emitted :=
  if typ ≠ cfg.TPubSub then
    { calls := [], fault := none }
  else
    let a : List Value := []
    let a := match unmarshal chunk with
      | .ok decoded => decoded
      | .error _ => a
    if a.length = 1 then
      match a[0]? with
      | none => { calls := [], fault := some .indexOutOfRange }
      | some a0 => Emission.Emit a0 [Arg.pipe]
    else
      match a[0]? with
      | none => { calls := [], fault := some .indexOutOfRange }
      | some a0 => Emission.Emit a0 ([Arg.pipe] ++ (a.drop 1).map Arg.val)

/-- The function `createPipe(conn, em)`: a pipe around `conn` with `linger` false and an open,
empty `pongs` channel of capacity 1. `now` is the reading of the clock; `pongStart` is the
zero time. The subscription of `pubSub` is the function `pubSub` above. -/
def createPipe (conn : Conn) (now : Nat) : Pipe :=
  { conn := conn, now := now, pongStart := 0, linger := false,
    pongs := { closed := false, buf := [] }, handled := [], closeCalls := 0 }

/-! ## Sample states, used to instantiate the theorems -/

/-- A connection just opened: nothing written, no call made, no deadline set, with `incoming`
on the wire and the reads returning according to `sched`. -/
def Conn.fresh (incoming sched : List Nat) : Conn :=
  { incoming := incoming, sched := sched, outgoing := [], closed := false,
    readDeadline := none, writeDeadline := none, calls := [] }

/-- A sample assignment of the package constants. -/
def sampleConfig : Config :=
  { TLinger := 0, TPing := 1, TPong := 2, TPubSub := 3, MaxChunk := 4294967295 }

/-- The bytes of the JSON text `["greet","hello"]`. -/
def greetPayload : List Nat :=
  [91, 34, 103, 114, 101, 101, 116, 34, 44, 34, 104, 101, 108, 108, 111, 34, 93]

/-- The bytes of the JSON text `["ping-test"]`. -/
def pingTestPayload : List Nat :=
  [91, 34, 112, 105, 110, 103, 45, 116, 101, 115, 116, 34, 93]

/-- The bytes of the JSON text `[[1],2]`, whose element 0 is an array. -/
def arrayKeyPayload : List Nat :=
  [91, 91, 49, 93, 44, 50, 93]

/-- What `json.Unmarshal` answers on the three sample payloads; every other payload used
with it below (the single byte of an opening brace, 123; the two bytes 255, 0) is
malformed JSON. -/
def sampleUnmarshal (chunk : List Nat) : Except String (List Value) :=
  if chunk = greetPayload then .ok [.string "greet", .string "hello"]
  else if chunk = pingTestPayload then .ok [.string "ping-test"]
  else if chunk = arrayKeyPayload then .ok [.array [.number "1"], .number "2"]
  else .error "invalid character"

end Network

namespace Network

/-! ## The underlying connection and `readData` -/

@[simp] theorem Conn.SetReadDeadline_incoming (c : Conn) (t : Nat) :
    (c.SetReadDeadline t).incoming = c.incoming := by
  unfold Conn.SetReadDeadline; split <;> rfl

@[simp] theorem Conn.SetReadDeadline_sched (c : Conn) (t : Nat) :
    (c.SetReadDeadline t).sched = c.sched := by
  unfold Conn.SetReadDeadline; split <;> rfl

@[simp] theorem Conn.SetReadDeadline_outgoing (c : Conn) (t : Nat) :
    (c.SetReadDeadline t).outgoing = c.outgoing := by
  unfold Conn.SetReadDeadline; split <;> rfl

@[simp] theorem Conn.SetReadDeadline_closed (c : Conn) (t : Nat) :
    (c.SetReadDeadline t).closed = c.closed := by
  unfold Conn.SetReadDeadline; split <;> rfl

@[simp] theorem Conn.SetReadDeadline_writeDeadline (c : Conn) (t : Nat) :
    (c.SetReadDeadline t).writeDeadline = c.writeDeadline := by
  unfold Conn.SetReadDeadline; split <;> rfl

@[simp] theorem Conn.SetReadDeadline_calls (c : Conn) (t : Nat) :
    (c.SetReadDeadline t).calls = c.calls := by
  unfold Conn.SetReadDeadline; split <;> rfl

theorem Conn.SetReadDeadline_readDeadline (c : Conn) (t : Nat) (h : c.closed = false) :
    (c.SetReadDeadline t).readDeadline = some t := by
  simp [Conn.SetReadDeadline, h]

@[simp] theorem Pipe.setReadDeadLine_conn (c : Pipe) (d : Nat) :
    (c.setReadDeadLine d).conn = c.conn.SetReadDeadline (c.now + d) := rfl

@[simp] theorem Pipe.setReadDeadLine_now (c : Pipe) (d : Nat) :
    (c.setReadDeadLine d).now = c.now := rfl

@[simp] theorem Pipe.setReadDeadLine_pongStart (c : Pipe) (d : Nat) :
    (c.setReadDeadLine d).pongStart = c.pongStart := rfl

@[simp] theorem Pipe.setReadDeadLine_linger (c : Pipe) (d : Nat) :
    (c.setReadDeadLine d).linger = c.linger := rfl

@[simp] theorem Pipe.setReadDeadLine_pongs (c : Pipe) (d : Nat) :
    (c.setReadDeadLine d).pongs = c.pongs := rfl

@[simp] theorem Pipe.setReadDeadLine_handled (c : Pipe) (d : Nat) :
    (c.setReadDeadLine d).handled = c.handled := rfl

@[simp] theorem Pipe.setReadDeadLine_closeCalls (c : Pipe) (d : Nat) :
    (c.setReadDeadLine d).closeCalls = c.closeCalls := rfl

theorem Conn.Read_cases (c : Conn) (k : Nat) :
    (∃ e, c.Read k = (.error e, { c with calls := c.calls ++ [Call.read k c.readDeadline] }) ∧
      (c.closed = true ∨ c.incoming = [])) ∨
    (∃ n, n ≤ k ∧ n ≤ c.incoming.length ∧ (1 ≤ k → 1 ≤ n) ∧ c.closed = false ∧
      c.incoming ≠ [] ∧
      c.Read k = (.ok (c.incoming.take n),
        { c with incoming := c.incoming.drop n, sched := c.sched.tail,
                 calls := c.calls ++ [Call.read k c.readDeadline] })) := by
  by_cases hc : c.closed = true
  · left
    exact ⟨"use of closed network connection", by simp [Conn.Read, hc], Or.inl hc⟩
  · have hc' : c.closed = false := by simpa using hc
    by_cases hi : c.incoming = []
    · left
      exact ⟨"i/o timeout", by simp [Conn.Read, hc', hi], Or.inr hi⟩
    · right
      have hlen : 0 < c.incoming.length := List.length_pos.mpr hi
      have hne : c.incoming.length ≠ 0 := by omega
      cases hs : c.sched with
      | nil =>
        refine ⟨min k c.incoming.length, by omega, by omega, by omega, hc', hi, ?_⟩
        simp [Conn.Read, hc', hne, hs]
      | cons s rest =>
        refine ⟨min (max 1 s) (min k c.incoming.length), by omega, by omega, by omega, hc', hi, ?_⟩
        simp [Conn.Read, hc', hne, hs]

theorem readLoop_done (want fuel transfer : Nat) (buffer : List Nat) (c : Pipe)
    (h : ¬ transfer < want) : readLoop want fuel transfer buffer c = some (.ok buffer, c) := by
  unfold readLoop
  simp [h]

theorem readLoop_succ (want fuel transfer : Nat) (buffer : List Nat) (c : Pipe)
    (h : transfer < want) :
    readLoop want (fuel + 1) transfer buffer c =
      match (c.setReadDeadLine minTimeout).conn.Read (if want > 512 then 512 else want) with
      | (.error err, conn) => some (.error err, { c.setReadDeadLine minTimeout with conn := conn })
      | (.ok buf, conn) =>
        readLoop want fuel ((transfer + buf.length) % 2 ^ 32) (buffer ++ buf)
          { c.setReadDeadLine minTimeout with conn := conn } := by
  rw [readLoop]
  simp only [h, if_true]
  rcases hr : (c.setReadDeadLine minTimeout).conn.Read (if want > 512 then 512 else want)
    with ⟨r, conn⟩
  cases r <;> simp [hr]

theorem readLoop_spec (want : Nat) :
    ∀ (fuel transfer : Nat) (buffer : List Nat) (c : Pipe)
      (r : Except String (List Nat)) (c' : Pipe),
      readLoop want fuel transfer buffer c = some (r, c') →
      ∃ (consumed : List Nat) (more : List Call),
        c.conn.incoming = consumed ++ c'.conn.incoming ∧
        c'.conn.calls = c.conn.calls ++ more ∧
        c' = { c with conn := c'.conn } ∧
        c'.conn.closed = c.conn.closed ∧
        c'.conn.outgoing = c.conn.outgoing ∧
        c'.conn.writeDeadline = c.conn.writeDeadline ∧
        (c.conn.closed = false →
          ∀ x ∈ more, x = Call.read (min want 512) (some (c.now + minTimeout))) ∧
        (transfer < want → more ≠ []) ∧
        (∀ buf, r = .ok buf → buf = buffer ++ consumed) ∧
        (transfer ≤ buffer.length → ∀ buf, r = .ok buf → want ≤ buf.length) := by
  intro fuel
  induction fuel with
  | zero =>
    intro transfer buffer c r c' h
    by_cases ht : transfer < want
    · rw [readLoop] at h
      simp [ht] at h
    · rw [readLoop_done _ _ _ _ _ ht] at h
      simp only [Option.some.injEq, Prod.mk.injEq] at h
      obtain ⟨rfl, rfl⟩ := h
      refine ⟨[], [], by simp, by simp, rfl, rfl, rfl, rfl, by simp, fun h => absurd h ht, ?_, ?_⟩
      · intro buf hb; simp at hb; simp [hb]
      · intro hle buf hb; simp at hb; subst hb; omega
  | succ fuel ih =>
    intro transfer buffer c r c' h
    by_cases ht : transfer < want
    · rw [readLoop_succ _ _ _ _ _ ht] at h
      have htake : (if want > 512 then 512 else want) = min want 512 := by
        split <;> omega
      rw [htake] at h
      rcases Conn.Read_cases (c.setReadDeadLine minTimeout).conn (min want 512) with
        ⟨e, he, _⟩ | ⟨n, hnk, hnl, hn1, hopen, hne, hread⟩
      · rw [he] at h
        simp only [Option.some.injEq, Prod.mk.injEq] at h
        obtain ⟨rfl, rfl⟩ := h
        refine ⟨[], [Call.read (min want 512) (c.setReadDeadLine minTimeout).conn.readDeadline],
          by simp, by simp, by simp, by simp, by simp, by simp, ?_, by simp, by simp, by simp⟩
        intro hc
        simp [Conn.SetReadDeadline_readDeadline _ _ hc]
      · rw [hread] at h
        simp only at h
        obtain ⟨consumed, more, h1, h2, h3, h4, h5, h6, h7, _, h9, h10⟩ := ih _ _ _ _ _ h
        have hcl : c.conn.closed = false := by simpa using hopen
        have hdl := Conn.SetReadDeadline_readDeadline c.conn (c.now + minTimeout) hcl
        simp only [Pipe.setReadDeadLine_conn, Pipe.setReadDeadLine_now,
          Pipe.setReadDeadLine_pongStart, Pipe.setReadDeadLine_linger, Pipe.setReadDeadLine_pongs,
          Pipe.setReadDeadLine_handled, Pipe.setReadDeadLine_closeCalls,
          Conn.SetReadDeadline_incoming, Conn.SetReadDeadline_closed,
          Conn.SetReadDeadline_outgoing, Conn.SetReadDeadline_writeDeadline,
          Conn.SetReadDeadline_calls, hdl, hcl] at h1 h2 h3 h4 h5 h6 h7 h9 h10 hnl
        refine ⟨c.conn.incoming.take n ++ consumed,
          Call.read (min want 512) (some (c.now + minTimeout)) :: more,
          ?_, ?_, ?_, ?_, ?_, ?_, ?_, by simp, ?_, ?_⟩
        · rw [List.append_assoc, ← h1, List.take_append_drop]
        · rw [h2]; simp
        · rw [h3]
        · rw [h4, hcl]
        · rw [h5]
        · rw [h6]
        · intro _ x hx
          rcases List.mem_cons.mp hx with rfl | hx
          · rfl
          · exact h7 trivial x hx
        · intro buf hb
          rw [h9 buf hb, List.append_assoc]
        · intro hle buf hb
          refine h10 ?_ buf hb
          have := Nat.mod_le (transfer + (c.conn.incoming.take n).length) (2 ^ 32)
          simp only [List.length_append]
          omega
    · rw [readLoop_done _ _ _ _ _ ht] at h
      simp only [Option.some.injEq, Prod.mk.injEq] at h
      obtain ⟨rfl, rfl⟩ := h
      refine ⟨[], [], by simp, by simp, rfl, rfl, rfl, rfl, by simp, fun h => absurd h ht, ?_, ?_⟩
      · intro buf hb; simp at hb; simp [hb]
      · intro hle buf hb; simp at hb; subst hb; omega

theorem readLoop_isSome (want : Nat) :
    ∀ (fuel transfer : Nat) (buffer : List Nat) (c : Pipe),
      c.conn.incoming.length < fuel →
      ∃ r c', readLoop want fuel transfer buffer c = some (r, c') := by
  intro fuel
  induction fuel with
  | zero => intro _ _ _ h; omega
  | succ fuel ih =>
    intro transfer buffer c hfuel
    by_cases ht : transfer < want
    · rw [readLoop_succ _ _ _ _ _ ht]
      have htake : (if want > 512 then 512 else want) = min want 512 := by
        split <;> omega
      rw [htake]
      rcases Conn.Read_cases (c.setReadDeadLine minTimeout).conn (min want 512) with
        ⟨e, he, _⟩ | ⟨n, _, hnl, hn1, _, _, hread⟩
      · rw [he]; exact ⟨_, _, rfl⟩
      · rw [hread]
        apply ih
        have h1 : 1 ≤ n := hn1 (by omega)
        simp only [Pipe.setReadDeadLine_conn, Conn.SetReadDeadline_incoming] at hnl ⊢
        simp only [List.length_drop]
        omega
    · exact ⟨_, _, readLoop_done _ _ _ _ _ ht⟩

/-- The call `readData(want)` always returns: the loop never runs out of the iterations
granted to it. -/
theorem readData_isSome (c : Pipe) (want : Nat) : ∃ r c', c.readData want = some (r, c') := by
  unfold Pipe.readData
  apply readLoop_isSome
  split <;> simp

/-- What a call of `readData(want)` does to the pipe: it takes a prefix `consumed` of the
pending bytes and makes the calls `more` on the connection; every other part of the pipe is
left alone. On an open connection each of these calls is a `Read` of `min(want, 512)` bytes
under the deadline `now + minTimeout`; a successful call returns exactly `consumed`, which
has at least `want` bytes. -/
theorem readData_spec (c : Pipe) (want : Nat) (r : Except String (List Nat)) (c' : Pipe)
    (h : c.readData want = some (r, c')) :
    ∃ (consumed : List Nat) (more : List Call),
      c.conn.incoming = consumed ++ c'.conn.incoming ∧
      c'.conn.calls = c.conn.calls ++ more ∧
      c' = { c with conn := c'.conn } ∧
      c'.conn.closed = c.conn.closed ∧
      c'.conn.outgoing = c.conn.outgoing ∧
      c'.conn.writeDeadline = c.conn.writeDeadline ∧
      (c.conn.closed = false →
        ∀ x ∈ more, x = Call.read (min want 512) (some (c.now + minTimeout))) ∧
      (0 < want → more ≠ []) ∧
      (∀ buf, r = .ok buf → buf = consumed ∧ want ≤ buf.length) := by
  unfold Pipe.readData at h
  obtain ⟨consumed, more, h1, h2, h3, h4, h5, h6, h7, h8, h9, h10⟩ :=
    readLoop_spec _ _ _ _ _ _ _ h
  refine ⟨consumed, more, ?_, ?_, ?_, ?_, ?_, ?_, ?_, h8, ?_⟩
  · split at h1 <;> simpa using h1
  · split at h2 <;> simpa using h2
  · split at h3 <;> simpa using h3
  · split at h4 <;> simpa using h4
  · split at h5 <;> simpa using h5
  · split at h6 <;> simpa using h6
  · intro hc
    split at h7 <;> simpa [hc] using h7
  · intro buf hb
    have e1 := h9 buf hb
    have e2 := h10 (by simp) buf hb
    rw [List.nil_append] at e1
    exact ⟨e1, e2⟩

theorem readData_closed (c : Pipe) (want : Nat) (hc : c.conn.closed = true) (hw : 0 < want) :
    ∃ e c', c.readData want = some (.error e, c') ∧ c' = { c with conn := c'.conn } ∧
      c'.conn.closed = true := by
  obtain ⟨r, c', h⟩ := readData_isSome c want
  obtain ⟨consumed, more, h1, h2, h3, h4, h5, h6, h7, h8, h9⟩ := readData_spec c want r c' h
  cases r with
  | error e => exact ⟨e, c', h, h3, by rw [h4, hc]⟩
  | ok buf =>
    exfalso
    unfold Pipe.readData at h
    simp only at h
    rw [readLoop_succ _ _ _ _ _ hw] at h
    have htake : (if want > 512 then 512 else want) = min want 512 := by
      split <;> omega
    rw [htake] at h
    generalize hc1 : (if c.linger = true then c.setReadDeadLine maxTimeout
      else c.setReadDeadLine minTimeout) = c1 at h
    have hcl : c1.conn.closed = true := by
      rw [← hc1]; split <;> simpa using hc
    rcases Conn.Read_cases (c1.setReadDeadLine minTimeout).conn (min want 512) with
      ⟨e, he, _⟩ | ⟨n, _, _, _, hopen, _, _⟩
    · rw [he] at h
      simp at h
    · simp [hcl] at hopen

theorem readData_zero (c : Pipe) :
    ∃ c', c.readData 0 = some (.ok [], c') ∧ c' = { c with conn := c'.conn } ∧
      c'.conn.closed = c.conn.closed := by
  refine ⟨_, readLoop_done _ _ _ _ _ (by omega), ?_, ?_⟩
  · split <;> rfl
  · split <;> simp

theorem Pipe.Close_closed (c : Pipe) (h : c.pongs.closed = true) :
    c.Close = ({ c with closeCalls := c.closeCalls + 1 }, some Fault.closeOfClosedChannel) := by
  simp [Pipe.Close, h]

theorem Pipe.Close_open (c : Pipe) (h : c.pongs.closed = false) :
    c.Close = ({ c with closeCalls := c.closeCalls + 1,
                        pongs := { c.pongs with closed := true },
                        conn := c.conn.Close }, none) := by
  simp [Pipe.Close, h]

/-- Once `Close` has run, the next call of `routine` panics: its header read fails on the
closed connection and it calls `Close` again, which closes the closed channel `pongs`. -/
theorem routine_closed_panics (cfg : Config) (fuel : Nat) (c : Pipe)
    (hc : c.conn.closed = true) (hp : c.pongs.closed = true) :
    ∃ q, routine cfg (fuel + 1) c = (q, .panicked .closeOfClosedChannel) ∧
      q.closeCalls = c.closeCalls + 1 ∧ q.handled = c.handled := by
  obtain ⟨e, c', h, h3, _⟩ := readData_closed c 8 hc (by omega)
  have hp' : c'.pongs.closed = true := by rw [h3]; exact hp
  rw [routine, h]
  simp only [Pipe.Close_closed c' hp']
  refine ⟨_, rfl, ?_, ?_⟩
  · show c'.closeCalls + 1 = _
    rw [h3]
  · show c'.handled = _
    rw [h3]

theorem Pipe.pong_frame (cfg : Config) (c : Pipe) :
    (c.pong cfg) = { c with conn := (c.pong cfg).conn } ∧
      (c.pong cfg).conn.closed = c.conn.closed := by
  constructor
  · simp [Pipe.pong, Pipe.writeData, Pipe.setWriteDeadLine]
  · simp only [Pipe.pong, Pipe.writeData, Pipe.setWriteDeadLine, Conn.Write]
    split <;> simp

theorem Pipe.Close_open_spec (c : Pipe) (h : c.pongs.closed = false) :
    ∃ c', c.Close = (c', none) ∧ c'.conn.closed = true ∧ c'.pongs.closed = true ∧
      c'.closeCalls = c.closeCalls + 1 ∧ c'.handled = c.handled ∧
      c'.conn.incoming = c.conn.incoming := by
  rw [Pipe.Close_open c h]
  exact ⟨_, rfl, rfl, rfl, rfl, rfl, rfl⟩

/-- On an open connection `writeData(b)` puts `b` on the wire and returns `len(b)`. -/
theorem Pipe.writeData_open (c : Pipe) (b : List Nat) (hopen : c.conn.closed = false) :
    ∃ c', c.writeData b = ((b.length, none), c') ∧ c'.conn.outgoing = c.conn.outgoing ++ b ∧
      c'.conn.closed = false ∧ c'.conn.incoming = c.conn.incoming := by
  refine ⟨(c.writeData b).2, ?_, ?_, ?_, ?_⟩ <;>
    simp [Pipe.writeData, Pipe.setWriteDeadLine, Conn.Write, Conn.SetReadDeadline, hopen]

/-- The sending half of the frame round trip: on an open connection, for a payload `chunk`
with `0 < len(chunk) ≤ MaxChunk` (and `MaxChunk` a 32-bit value), `Write(typ, chunk)` puts
`createHeader(typ, len(chunk))` followed by `chunk` on the wire and returns `len(chunk)`
with no error. -/
theorem Pipe.Write_wire (cfg : Config) (c : Pipe) (typ : Nat) (chunk : List Nat)
    (hmax : cfg.MaxChunk < 2 ^ 32) (hpos : 0 < chunk.length)
    (hle : chunk.length ≤ cfg.MaxChunk) (hopen : c.conn.closed = false) :
    ∃ c', c.Write cfg typ chunk = ((chunk.length, none), c') ∧
      c'.conn.outgoing = c.conn.outgoing ++ (createHeader typ chunk.length ++ chunk) := by
  obtain ⟨c1, h1, ho1, hc1, _⟩ := Pipe.writeData_open c (createHeader typ chunk.length) hopen
  obtain ⟨c2, h2, ho2, _, _⟩ := Pipe.writeData_open c1 chunk hc1
  refine ⟨c2, ?_, ?_⟩
  · have hmod : chunk.length % 2 ^ 32 = chunk.length := Nat.mod_eq_of_lt (by omega)
    have h0 : ¬ chunk.length = 0 := by omega
    have hgt : ¬ chunk.length > cfg.MaxChunk := by omega
    simp only [Pipe.Write, hgt, h0, if_false, hmod, h1, h2]
  · rw [ho2, ho1, List.append_assoc]

theorem readLoop_exact (want : Nat) (hw : want < 2 ^ 32) :
    ∀ (fuel transfer : Nat) (buffer : List Nat) (c : Pipe),
      c.conn.closed = false → c.conn.incoming.length < fuel →
      transfer + c.conn.incoming.length = want →
      ∃ c', readLoop want fuel transfer buffer c = some (.ok (buffer ++ c.conn.incoming), c') ∧
        c'.conn.incoming = [] ∧ c' = { c with conn := c'.conn } ∧ c'.conn.closed = false := by
  intro fuel
  induction fuel with
  | zero => intro _ _ _ _ h; omega
  | succ fuel ih =>
    intro transfer buffer c hopen hfuel hsum
    by_cases ht : transfer < want
    · rw [readLoop_succ _ _ _ _ _ ht]
      have htake : (if want > 512 then 512 else want) = min want 512 := by
        split <;> omega
      rw [htake]
      rcases Conn.Read_cases (c.setReadDeadLine minTimeout).conn (min want 512) with
        ⟨e, _, hbad⟩ | ⟨n, hnk, hnl, hn1, _, _, hread⟩
      · exfalso
        simp only [Pipe.setReadDeadLine_conn, Conn.SetReadDeadline_closed,
          Conn.SetReadDeadline_incoming, hopen, Bool.false_eq_true, false_or] at hbad
        rw [hbad] at hsum
        simp at hsum
        omega
      · rw [hread]
        simp only [Pipe.setReadDeadLine_conn, Conn.SetReadDeadline_incoming] at hnl ⊢
        have h1 : 1 ≤ n := hn1 (by omega)
        have hlt : (c.conn.incoming.take n).length = n := by
          rw [List.length_take]; omega
        obtain ⟨c', hc', hinc, hframe, hcl⟩ := ih
          ((transfer + (c.conn.incoming.take n).length) % 2 ^ 32)
          (buffer ++ c.conn.incoming.take n)
          { c.setReadDeadLine minTimeout with
            conn := { (c.conn.SetReadDeadline (c.now + minTimeout)) with
              incoming := c.conn.incoming.drop n,
              sched := (c.conn.SetReadDeadline (c.now + minTimeout)).sched.tail,
              calls := (c.conn.SetReadDeadline (c.now + minTimeout)).calls ++
                [Call.read (min want 512)
                  (c.conn.SetReadDeadline (c.now + minTimeout)).readDeadline] } }
          (by simpa using hopen)
          (by simp only [List.length_drop]; omega)
          (by
            simp only [List.length_drop, hlt]
            rw [Nat.mod_eq_of_lt (by omega)]
            omega)
        refine ⟨c', ?_, hinc, ?_, hcl⟩
        · rw [hc']
          simp only [List.append_assoc, List.take_append_drop]
        · rw [hframe]
          rfl
    · have hnil : c.conn.incoming = [] := List.length_eq_zero.mp (by omega)
      exact ⟨c, by rw [readLoop_done _ _ _ _ _ ht, hnil, List.append_nil], hnil, rfl, hopen⟩

/-- When exactly `want` bytes are pending on an open connection, `readData(want)` returns
them all, whatever the sizes of the individual reads. -/
theorem readData_exact (c : Pipe) (want : Nat) (hw : want < 2 ^ 32)
    (hopen : c.conn.closed = false) (hlen : c.conn.incoming.length = want) :
    ∃ c', c.readData want = some (.ok c.conn.incoming, c') ∧ c'.conn.incoming = [] ∧
      c' = { c with conn := c'.conn } ∧ c'.conn.closed = false := by
  unfold Pipe.readData
  obtain ⟨c', h, hinc, hframe, hcl⟩ := readLoop_exact want hw
    ((if c.linger = true then c.setReadDeadLine maxTimeout
      else c.setReadDeadLine minTimeout).conn.incoming.length + 1) 0 []
    (if c.linger = true then c.setReadDeadLine maxTimeout else c.setReadDeadLine minTimeout)
    (by split <;> simpa using hopen) (by omega) (by split <;> simpa using hlen)
  refine ⟨c', ?_, hinc, ?_, hcl⟩
  · rw [h]
    split <;> simp
  · rw [hframe]
    split <;> rfl

theorem Conn.Read_sched (c : Conn) (k s : Nat) (ss : List Nat) (hopen : c.closed = false)
    (hne : c.incoming.length ≠ 0) (hs : c.sched = s :: ss) :
    c.Read k = (.ok (c.incoming.take (min (max 1 s) (min k c.incoming.length))),
      { c with incoming := c.incoming.drop (min (max 1 s) (min k c.incoming.length)),
               sched := ss,
               calls := c.calls ++ [Call.read k c.readDeadline] }) := by
  simp [Conn.Read, hopen, hne, hs]

/-- One iteration of the loop of `readData` on an open connection with pending bytes, when
the next read is scheduled to return `s` bytes. -/
theorem readLoop_step (want fuel transfer : Nat) (buffer : List Nat) (c : Pipe) (s : Nat)
    (ss : List Nat) (ht : transfer < want) (hopen : c.conn.closed = false)
    (hne : c.conn.incoming.length ≠ 0) (hs : c.conn.sched = s :: ss) :
    ∃ c1, readLoop want (fuel + 1) transfer buffer c =
        readLoop want fuel
          ((transfer + min (max 1 s) (min (min want 512) c.conn.incoming.length)) % 2 ^ 32)
          (buffer ++ c.conn.incoming.take
            (min (max 1 s) (min (min want 512) c.conn.incoming.length))) c1 ∧
      c1.conn.incoming = c.conn.incoming.drop
        (min (max 1 s) (min (min want 512) c.conn.incoming.length)) ∧
      c1.conn.sched = ss ∧ c1.conn.closed = false ∧ c1 = { c with conn := c1.conn } := by
  have htake : (if want > 512 then 512 else want) = min want 512 := by
    split <;> omega
  rw [readLoop_succ _ _ _ _ _ ht, htake,
    Conn.Read_sched (c.setReadDeadLine minTimeout).conn (min want 512) s ss
      (by simpa using hopen) (by simpa using hne) (by simpa using hs)]
  simp only [Pipe.setReadDeadLine_conn, Conn.SetReadDeadline_incoming]
  have hl : (c.conn.incoming.take
      (min (max 1 s) (min (min want 512) c.conn.incoming.length))).length =
      min (max 1 s) (min (min want 512) c.conn.incoming.length) := by
    rw [List.length_take]; omega
  rw [hl]
  exact ⟨_, rfl, rfl, rfl, by simpa using hopen, rfl⟩

/-- When the first read returns only `s1 < 8` bytes and the second read returns all it is
asked for, `readData(8)` returns `s1 + 8` bytes: the second read asks for 8 bytes again,
not for the `8 - s1` that are missing. -/
theorem readData_header_split (c : Pipe) (s1 s2 : Nat) (ss : List Nat)
    (hopen : c.conn.closed = false) (hsched : c.conn.sched = s1 :: s2 :: ss)
    (h1 : 1 ≤ s1) (h1' : s1 < 8) (h2 : 8 ≤ s2) (hlen : s1 + 8 ≤ c.conn.incoming.length) :
    ∃ c', c.readData 8 = some (.ok (c.conn.incoming.take (s1 + 8)), c') ∧
      c'.conn.incoming = c.conn.incoming.drop (s1 + 8) ∧
      c' = { c with conn := c'.conn } ∧ c'.conn.closed = false := by
  unfold Pipe.readData
  simp only
  generalize hc1 : (if c.linger = true then c.setReadDeadLine maxTimeout
      else c.setReadDeadLine minTimeout) = c1
  have e1 : c1.conn.closed = false := by rw [← hc1]; split <;> simpa using hopen
  have e2 : c1.conn.incoming = c.conn.incoming := by rw [← hc1]; split <;> simp
  have e3 : c1.conn.sched = s1 :: s2 :: ss := by rw [← hc1]; split <;> simpa using hsched
  have e4 : c1 = { c with conn := c1.conn } := by rw [← hc1]; split <;> rfl
  obtain ⟨f, hf⟩ : ∃ f, c1.conn.incoming.length + 1 = f + 1 + 1 :=
    ⟨c1.conn.incoming.length - 1, by rw [e2]; omega⟩
  rw [hf]
  obtain ⟨c2, hstep1, hi2, hs2, hc2, hf2⟩ := readLoop_step 8 (f + 1) 0 [] c1 s1 (s2 :: ss)
    (by omega) e1 (by rw [e2]; omega) e3
  have hn1 : min (max 1 s1) (min (min 8 512) c1.conn.incoming.length) = s1 := by
    rw [e2]; omega
  rw [hn1] at hstep1 hi2
  rw [hstep1, Nat.zero_add, Nat.mod_eq_of_lt (by omega : s1 < 2 ^ 32)]
  obtain ⟨c3, hstep2, hi3, _, hc3, hf3⟩ := readLoop_step 8 f s1
    ([] ++ c1.conn.incoming.take s1) c2 s2 ss
    h1' hc2 (by rw [hi2, List.length_drop, e2]; omega) hs2
  have hn2 : min (max 1 s2) (min (min 8 512) c2.conn.incoming.length) = 8 := by
    rw [hi2, List.length_drop, e2]; omega
  rw [hn2] at hstep2 hi3
  rw [hstep2, Nat.mod_eq_of_lt (by omega : s1 + 8 < 2 ^ 32),
    readLoop_done _ _ _ _ _ (by omega)]
  refine ⟨c3, ?_, ?_, ?_, hc3⟩
  · rw [hi2, e2, List.nil_append, List.take_add]
  · rw [hi3, hi2, e2, List.drop_drop, Nat.add_comm]
  · rw [hf3, hf2, e4]

/-- With fewer than `want` bytes pending, `readData(want)` fails. -/
theorem readData_short (c : Pipe) (want : Nat) (hlen : c.conn.incoming.length < want) :
    ∃ e c', c.readData want = some (.error e, c') ∧ c' = { c with conn := c'.conn } ∧
      c'.conn.closed = c.conn.closed := by
  obtain ⟨r, c', h⟩ := readData_isSome c want
  obtain ⟨consumed, more, h1, h2, h3, h4, h5, h6, h7, h8, h9⟩ := readData_spec c want r c' h
  cases r with
  | error e => exact ⟨e, c', h, h3, h4⟩
  | ok buf =>
    exfalso
    obtain ⟨hb, hl⟩ := h9 buf rfl
    have := congrArg List.length h1
    rw [List.length_append, ← hb] at this
    omega

/-- The accessors of a header only look at its first eight bytes. -/
theorem createHeader_append_decode (t n : Nat) (extra : List Nat) (ht : t < 2 ^ 16)
    (hn : n < 2 ^ 32) :
    headerFrom (createHeader t n ++ extra) = .ok ⟨createHeader t n ++ extra⟩ ∧
    (Header.mk (createHeader t n ++ extra)).isValid = true ∧
    (Header.mk (createHeader t n ++ extra)).getType = t ∧
    (Header.mk (createHeader t n ++ extra)).chunkSize = n := by
  refine ⟨?_, ?_, ?_, ?_⟩
  · simp [headerFrom, createHeader, putUint16, putUint32]
  · simp [Header.isValid, createHeader, putUint16, putUint32]
  · simp only [Header.getType, createHeader, putUint16, putUint32, uint16, List.nil_append,
      List.cons_append, List.drop_succ_cons, List.drop_zero, List.take_succ_cons, List.take_zero,
      List.getD_cons_succ, List.getD_cons_zero]
    omega
  · simp only [Header.chunkSize, createHeader, putUint16, putUint32, uint32, List.nil_append,
      List.cons_append, List.drop_succ_cons, List.drop_zero,
      List.getD_cons_succ, List.getD_cons_zero]
    omega

theorem createHeader_length (t n : Nat) : (createHeader t n).length = 8 := by
  simp [createHeader, putUint16, putUint32]

theorem Conn.Read_whole (c : Conn) (k : Nat) (hopen : c.closed = false) (hk : 0 < k)
    (hlen : k ≤ c.incoming.length) (hfirst : ∀ s, c.sched.head? = some s → k ≤ s) :
    c.Read k = (.ok (c.incoming.take k),
      { c with incoming := c.incoming.drop k, sched := c.sched.tail,
               calls := c.calls ++ [Call.read k c.readDeadline] }) := by
  have hne : c.incoming.length ≠ 0 := by omega
  cases hs : c.sched with
  | nil =>
    have : min k c.incoming.length = k := by omega
    simp [Conn.Read, hopen, hne, hs, this]
  | cons s rest =>
    have hks : k ≤ s := hfirst s (by simp [hs])
    have : min (max 1 s) (min k c.incoming.length) = k := by omega
    simp [Conn.Read, hopen, hne, hs, this]

/-- When the first read returns the eight header bytes at once, `readData(8)` returns
exactly these and leaves the rest of the stream pending. -/
theorem readData_header_whole (c : Pipe) (hdr rest : List Nat)
    (hopen : c.conn.closed = false) (hinc : c.conn.incoming = hdr ++ rest)
    (hlen : hdr.length = 8) (hfirst : ∀ s, c.conn.sched.head? = some s → 8 ≤ s) :
    ∃ c', c.readData 8 = some (.ok hdr, c') ∧ c'.conn.incoming = rest ∧
      c' = { c with conn := c'.conn } ∧ c'.conn.closed = false := by
  unfold Pipe.readData
  simp only
  generalize hc1 : (if c.linger = true then c.setReadDeadLine maxTimeout
      else c.setReadDeadLine minTimeout) = c1
  have e1 : c1.conn.closed = false := by rw [← hc1]; split <;> simpa using hopen
  have e2 : c1.conn.incoming = hdr ++ rest := by rw [← hc1]; split <;> simpa using hinc
  have e3 : c1.conn.sched = c.conn.sched := by rw [← hc1]; split <;> simp
  have e4 : c1 = { c with conn := c1.conn } := by rw [← hc1]; split <;> rfl
  rw [readLoop_succ _ _ _ _ _ (by omega)]
  have htake : (if 8 > 512 then 512 else 8) = 8 := by decide
  rw [htake]
  rw [Conn.Read_whole (c1.setReadDeadLine minTimeout).conn 8 (by simpa using e1) (by omega)
    (by simp [e2]; omega) (by simpa [e3] using hfirst)]
  simp only [Pipe.setReadDeadLine_conn, Conn.SetReadDeadline_incoming, e2]
  have ht : List.take 8 (hdr ++ rest) = hdr := by
    rw [← hlen]; simp
  have hd : List.drop 8 (hdr ++ rest) = rest := by
    rw [← hlen]; simp
  rw [ht, hd, readLoop_done _ _ _ _ _ (by rw [hlen]; decide)]
  refine ⟨_, rfl, rfl, ?_, by simpa using e1⟩
  simp only [Pipe.setReadDeadLine]
  rw [e4]

theorem readData_empty (c : Pipe) (want : Nat) (hw : 0 < want) (hinc : c.conn.incoming = []) :
    ∃ e c', c.readData want = some (.error e, c') ∧ c' = { c with conn := c'.conn } := by
  obtain ⟨r, c', h⟩ := readData_isSome c want
  obtain ⟨consumed, more, h1, h2, h3, h4, h5, h6, h7, h8, h9⟩ := readData_spec c want r c' h
  cases r with
  | error e => exact ⟨e, c', h, h3⟩
  | ok buf =>
    exfalso
    obtain ⟨hb, hl⟩ := h9 buf rfl
    rw [hinc] at h1
    have : consumed = [] := (List.append_eq_nil.mp h1.symm).1
    rw [hb, this] at hl
    simp at hl
    omega

/-- The receiving half of the frame round trip, for a frame alone on the wire whose header
is returned by one read: for a type `t` other than `TLinger`, `TPing` and `TPong` and a
payload `P` with `len(P) < 2^32`, `routine` passes `(t, P)` to the subscribers once,
whatever the sizes of the reads of the payload, then closes the connection and returns. -/
theorem routine_single_frame (cfg : Config) (fuel : Nat) (p : Pipe) (t : Nat) (P : List Nat)
    (ht : t < 2 ^ 16) (hP : P.length < 2 ^ 32)
    (hL : t ≠ cfg.TLinger) (hPi : t ≠ cfg.TPing) (hPo : t ≠ cfg.TPong)
    (hopen : p.conn.closed = false) (hch : p.pongs.closed = false)
    (hinc : p.conn.incoming = createHeader t P.length ++ P)
    (hfirst : ∀ s, p.conn.sched.head? = some s → 8 ≤ s) :
    ∃ q, routine cfg (fuel + 2) p = (q, .returned) ∧ q.handled = p.handled ++ [(t, P)] ∧
      q.closeCalls = p.closeCalls + 1 ∧ q.conn.closed = true := by
  obtain ⟨hhf, hval, hty, hsz⟩ := createHeader_append_decode t P.length [] ht hP
  rw [List.append_nil] at hhf hval hty hsz
  obtain ⟨p1, hr1, hi1, hf1, hc1⟩ := readData_header_whole p (createHeader t P.length) P hopen
    hinc (by simp [createHeader, putUint16, putUint32]) hfirst
  obtain ⟨p2, hr2, hi2, hf2, hc2⟩ := readData_exact p1 P.length hP hc1 (by rw [hi1])
  rw [hi1] at hr2
  obtain ⟨e, p3, hr3, hf3⟩ := readData_empty
    { p2 with handled := p2.handled ++ [(t, P)] } 8 (by omega) hi2
  have hp3 : p3.pongs.closed = false := by
    rw [hf3]; simp only; rw [hf2]; simp only; rw [hf1]; exact hch
  rw [routine, hr1]
  simp only [hhf, hval, hty, hsz, Bool.not_true, hL, hPi, hPo, if_false]
  simp only [Bool.false_eq_true, if_false]
  rw [hr2]
  simp only
  rw [routine, hr3]
  simp only [Pipe.Close_open p3 hp3]
  refine ⟨_, rfl, ?_, ?_, rfl⟩
  · simp only; rw [hf3]; simp only; rw [hf2]; simp only; rw [hf1]
  · simp only; rw [hf3]; simp only; rw [hf2]; simp only; rw [hf1]

theorem Pipe.pong_incoming (cfg : Config) (c : Pipe) :
    (c.pong cfg).conn.incoming = c.conn.incoming := by
  simp only [Pipe.pong, Pipe.writeData, Pipe.setWriteDeadLine, Conn.Write]
  split <;> simp

theorem Pipe.Close_cases (c : Pipe) :
    (∃ c' f, c.Close = (c', some f)) ∨
    (∃ c', c.Close = (c', none) ∧ c'.conn.incoming = c.conn.incoming) := by
  cases h : c.pongs.closed with
  | true => exact Or.inl ⟨_, _, Pipe.Close_closed c h⟩
  | false => exact Or.inr ⟨_, Pipe.Close_open c h, rfl⟩

/-- The recursion of `routine` ends: with more fuel than there are pending bytes a call of
`routine` never runs out of fuel, since every frame takes at least its eight header bytes
off the stream. -/
theorem routine_terminates (cfg : Config) :
    ∀ (fuel : Nat) (p : Pipe), p.conn.incoming.length < fuel →
      (routine cfg fuel p).2 ≠ Outcome.outOfFuel := by
  intro fuel
  induction fuel with
  | zero => intro _ h; omega
  | succ fuel ih =>
    intro p hfuel
    obtain ⟨r, p1, h⟩ := readData_isSome p 8
    obtain ⟨consumed, _, h1, _, _, _, _, _, _, _, h9⟩ := readData_spec p 8 r p1 h
    rw [routine, h]
    cases r with
    | error e =>
      simp only
      rcases Pipe.Close_cases p1 with ⟨c', f, hc⟩ | ⟨c', hc, _⟩ <;> rw [hc] <;> simp
    | ok hdr =>
      obtain ⟨hcons, hlen⟩ := h9 hdr rfl
      have hinc1 : p1.conn.incoming.length < fuel := by
        have := congrArg List.length h1
        rw [List.length_append, ← hcons] at this
        omega
      have hhf : headerFrom hdr = .ok ⟨hdr⟩ := by
        simp only [headerFrom]
        rw [if_neg (by omega)]
      simp only [hhf]
      have hcl : (∃ c' f, (if (!(Header.mk hdr).isValid) = true then p1.Close else (p1, none))
            = (c', some f)) ∨
          (∃ c', (if (!(Header.mk hdr).isValid) = true then p1.Close else (p1, none))
            = (c', none) ∧ c'.conn.incoming = p1.conn.incoming) := by
        split
        · exact Pipe.Close_cases p1
        · exact Or.inr ⟨p1, rfl, rfl⟩
      rcases hcl with ⟨c', f, hc⟩ | ⟨p2, hc, hinc2⟩
      · rw [hc]; simp
      · rw [hc]
        simp only
        have hinc2' : p2.conn.incoming.length < fuel := by rw [hinc2]; exact hinc1
        by_cases hL : (Header.mk hdr).getType = cfg.TLinger
        · simp only [hL, if_true]
          exact ih _ hinc2'
        · simp only [hL, if_false]
          by_cases hP : (Header.mk hdr).getType = cfg.TPing
          · simp only [hP, if_true]
            exact ih _ (by rw [Pipe.pong_incoming]; exact hinc2')
          · simp only [hP, if_false]
            by_cases hO : (Header.mk hdr).getType = cfg.TPong
            · simp only [hO, if_true]
              split
              · simp
              · simp
              · exact ih _ hinc2'
            · simp only [hO, if_false]
              obtain ⟨r2, p3, h2⟩ := readData_isSome p2 (Header.mk hdr).chunkSize
              obtain ⟨consumed2, _, h21, _, _, _, _, _, _, _, _⟩ := readData_spec p2 _ r2 p3 h2
              have hinc3 : p3.conn.incoming.length < fuel := by
                have := congrArg List.length h21
                rw [List.length_append] at this
                omega
              rw [h2]
              cases r2 with
              | error e2 =>
                simp only
                rcases Pipe.Close_cases p3 with ⟨c', f, hc3⟩ | ⟨c', hc3, hinc4⟩
                · rw [hc3]; simp
                · rw [hc3]
                  simp only
                  exact ih _ (by simp only; rw [hinc4]; exact hinc3)
              | ok chunk =>
                simp only
                exact ih _ hinc3

/-- Two frames written back to back, with every read returning all it is asked for: two
calls of `Write` put two frames of type 100 with 513-byte payloads on the wire. The second
read of the first payload asks for 512 bytes, not for the one byte missing, so `routine`
hands the subscribers a single frame whose payload is the first payload followed by the
header and 503 bytes of the second frame; it then takes bytes of the second payload for a
header, finds the sentinel wrong and ends in the panic of a second `Close`. -/
theorem routine_overreads_next_frame :
    (routine sampleConfig 3 (createPipe (Conn.fresh
        (((createPipe (Conn.fresh [] []) 0).Write sampleConfig 100
            (List.replicate 513 7)).2.Write sampleConfig 100
              (List.replicate 513 9)).2.conn.outgoing []) 0)).1.handled =
      [(100, List.replicate 513 7 ++ createHeader 100 513 ++ List.replicate 503 9)] ∧
    (routine sampleConfig 3 (createPipe (Conn.fresh
        (((createPipe (Conn.fresh [] []) 0).Write sampleConfig 100
            (List.replicate 513 7)).2.Write sampleConfig 100
              (List.replicate 513 9)).2.conn.outgoing []) 0)).2 =
      .panicked .closeOfClosedChannel := by
  decide!

/-- The run of `routine` on the header `00 00 00 64 00 00 00 00`, whose sentinel is wrong:
after the first `Close` it goes on, hands the frame `(100, nil)` to the subscribers, tries
to read the next header from the closed connection and panics in its second `Close`. -/
theorem corrupt_header_run :
    (routine sampleConfig 2 (createPipe (Conn.fresh [0, 0, 0, 100, 0, 0, 0, 0] []) 0)).2 =
      .panicked .closeOfClosedChannel ∧
    (routine sampleConfig 2 (createPipe (Conn.fresh [0, 0, 0, 100, 0, 0, 0, 0] []) 0)).1.handled =
      [(100, [])] ∧
    (routine sampleConfig 2
        (createPipe (Conn.fresh [0, 0, 0, 100, 0, 0, 0, 0] []) 0)).1.closeCalls = 2 ∧
    (routine sampleConfig 2
        (createPipe (Conn.fresh [0, 0, 0, 100, 0, 0, 0, 0] []) 0)).1.conn.calls =
      [Call.read 8 (some minTimeout), Call.close, Call.read 8 (some minTimeout)] := by
  decide!

/-! ## The claims -/

/-- C1: for every 16-bit type `t` and every 32-bit length `n`, `headerFrom` succeeds on
`createHeader t n`, the header it returns passes `isValid`, its `getType` is `t` and its
`chunkSize` is `n`. -/
theorem headerFrom_createHeader (t n : Nat) (ht : t < 2 ^ 16) (hn : n < 2 ^ 32) :
    ∃ h : Header, headerFrom (createHeader t n) = .ok h ∧ h.isValid = true ∧
      h.getType = t ∧ h.chunkSize = n := by
  obtain ⟨h1, h2, h3, h4⟩ := createHeader_append_decode t n [] ht hn
  rw [List.append_nil] at h1 h2 h3 h4
  exact ⟨⟨createHeader t n⟩, h1, h2, h3, h4⟩

/-- Witness of C1 at type `0x1234` and length `0xDEADBEEF`. -/
theorem headerFrom_createHeader_witness :
    ∃ h : Header, headerFrom (createHeader 0x1234 0xDEADBEEF) = .ok h ∧ h.isValid = true ∧
      h.getType = 0x1234 ∧ h.chunkSize = 0xDEADBEEF :=
  headerFrom_createHeader 0x1234 0xDEADBEEF (by decide) (by decide)

/-- C2: for every 16-bit type `t` and every 32-bit length `n`, `createHeader t n` is exactly
eight bytes: `0x1F`, `0xFA`, the two bytes of `t` most significant first, and the four bytes
of `n` most significant first. -/
theorem createHeader_layout (t n : Nat) (ht : t < 2 ^ 16) (hn : n < 2 ^ 32) :
    (createHeader t n).length = 8 ∧
    ∃ t1 t0 n3 n2 n1 n0 : Nat,
      createHeader t n = [0x1F, 0xFA, t1, t0, n3, n2, n1, n0] ∧
      t1 < 256 ∧ t0 < 256 ∧ n3 < 256 ∧ n2 < 256 ∧ n1 < 256 ∧ n0 < 256 ∧
      t = t1 * 2 ^ 8 + t0 ∧
      n = n3 * 2 ^ 24 + n2 * 2 ^ 16 + n1 * 2 ^ 8 + n0 := by
  refine ⟨by simp [createHeader, putUint16, putUint32], ?_⟩
  refine ⟨t / 2 ^ 8 % 256, t % 256, n / 2 ^ 24 % 256, n / 2 ^ 16 % 256, n / 2 ^ 8 % 256,
    n % 256, by simp [createHeader, putUint16, putUint32], ?_⟩
  omega

/-- Witness of C2 at type `0x1234` and length `0xDEADBEEF`. -/
theorem createHeader_layout_witness :
    (createHeader 0x1234 0xDEADBEEF).length = 8 ∧
    ∃ t1 t0 n3 n2 n1 n0 : Nat,
      createHeader 0x1234 0xDEADBEEF = [0x1F, 0xFA, t1, t0, n3, n2, n1, n0] ∧
      t1 < 256 ∧ t0 < 256 ∧ n3 < 256 ∧ n2 < 256 ∧ n1 < 256 ∧ n0 < 256 ∧
      0x1234 = t1 * 2 ^ 8 + t0 ∧
      0xDEADBEEF = n3 * 2 ^ 24 + n2 * 2 ^ 16 + n1 * 2 ^ 8 + n0 :=
  createHeader_layout 0x1234 0xDEADBEEF (by decide) (by decide)

/-- C3 fails on the code. A sender with an open connection and nothing written yet calls
`Write(t, P)` for a type `t` other than `TLinger`, `TPing`, `TPong` and a payload with
`0 < len(P) ≤ MaxChunk`; the peer has exactly the bytes written pending. When the peer's
first read returns `s1 < 8` bytes (at most `len(P)`) and its second read returns all it is
asked for, `Write` has returned `len(P)` without error, but `routine` hands the subscribers
the frame `(t, nil)` instead of `(t, P)`, and ends in the panic of a second `Close`. -/
theorem Write_routine_split_header (cfg : Config) (fuel : Nat) (s p : Pipe) (t : Nat)
    (P : List Nat) (s1 s2 : Nat) (ss : List Nat)
    (ht : t < 2 ^ 16) (hle : P.length ≤ cfg.MaxChunk) (hmax : cfg.MaxChunk < 2 ^ 32)
    (hL : t ≠ cfg.TLinger) (hPi : t ≠ cfg.TPing) (hPo : t ≠ cfg.TPong)
    (hs : s.conn.closed = false) (hso : s.conn.outgoing = [])
    (hopen : p.conn.closed = false) (hch : p.pongs.closed = false)
    (hwire : p.conn.incoming = (s.Write cfg t P).2.conn.outgoing)
    (hsched : p.conn.sched = s1 :: s2 :: ss)
    (h1 : 1 ≤ s1) (h1' : s1 < 8) (h1'' : s1 ≤ P.length) (h2 : 8 ≤ s2) :
    (s.Write cfg t P).1 = (P.length, none) ∧
    (t, ([] : List Nat)) ≠ (t, P) ∧
    ∃ q, routine cfg (fuel + 2) p = (q, .panicked .closeOfClosedChannel) ∧
      q.handled = p.handled ++ [(t, [])] ∧ q.closeCalls = p.closeCalls + 2 := by
  have hP : P.length < 2 ^ 32 := by omega
  obtain ⟨s', hw, hout⟩ := Pipe.Write_wire cfg s t P hmax (by omega) hle hs
  rw [hw] at hwire ⊢
  simp only at hwire
  rw [hout, hso, List.nil_append] at hwire
  refine ⟨rfl, ?_, ?_⟩
  · intro h
    have : P = [] := (Prod.mk.inj h).2.symm
    rw [this] at h1''
    simp at h1''
    omega
  obtain ⟨p1, hr1, hi1, hf1, hc1⟩ := readData_header_split p s1 s2 ss hopen hsched h1 h1' h2
    (by rw [hwire, List.length_append, createHeader_length]; omega)
  have htk : p.conn.incoming.take (s1 + 8) = createHeader t P.length ++ P.take s1 := by
    rw [hwire, Nat.add_comm, ← createHeader_length t P.length, List.take_append]
  have hdp : p.conn.incoming.drop (s1 + 8) = P.drop s1 := by
    rw [hwire, Nat.add_comm, ← createHeader_length t P.length, List.drop_append]
  rw [htk] at hr1
  rw [hdp] at hi1
  obtain ⟨hhf, hval, hty, hsz⟩ := createHeader_append_decode t P.length (P.take s1) ht hP
  obtain ⟨e, p2, hr2, hf2, hc2⟩ := readData_short p1 P.length
    (by rw [hi1, List.length_drop]; omega)
  have hp2 : p2.pongs.closed = false := by rw [hf2]; simp only; rw [hf1]; exact hch
  obtain ⟨p3, hclose, hc3, hp3, hcc3, hh3, _⟩ := Pipe.Close_open_spec p2 hp2
  obtain ⟨q, hq, hqc, hqh⟩ := routine_closed_panics cfg fuel
    { p3 with handled := p3.handled ++ [(t, [])] } hc3 hp3
  rw [routine, hr1]
  simp only [hhf, hval, hty, hsz, Bool.not_true, hL, hPi, hPo, if_false]
  simp only [Bool.false_eq_true, if_false]
  rw [hr2]
  simp only [hclose]
  refine ⟨q, hq, ?_, ?_⟩
  · rw [hqh]; simp only; rw [hh3, hf2]; simp only; rw [hf1]
  · rw [hqc]; simp only; rw [hcc3, hf2]; simp only; rw [hf1]

/-- Witness of C3's failure: type 100, payload `[1, 2, 3]`, reads of 3 then 8 bytes. -/
theorem Write_routine_split_header_witness :
    ((createPipe (Conn.fresh [] []) 0).Write sampleConfig 100 [1, 2, 3]).1 = (3, none) ∧
    ((100 : Nat), ([] : List Nat)) ≠ (100, [1, 2, 3]) ∧
    ∃ q, routine sampleConfig 2
        (createPipe (Conn.fresh [0x1F, 0xFA, 0, 100, 0, 0, 0, 3, 1, 2, 3] [3, 8]) 0) =
        (q, .panicked .closeOfClosedChannel) ∧
      q.handled = [(100, [])] ∧ q.closeCalls = 2 :=
  Write_routine_split_header sampleConfig 0 (createPipe (Conn.fresh [] []) 0)
    (createPipe (Conn.fresh [0x1F, 0xFA, 0, 100, 0, 0, 0, 3, 1, 2, 3] [3, 8]) 0)
    100 [1, 2, 3] 3 8 [] (by decide) (by decide) (by decide) (by decide) (by decide)
    (by decide) rfl rfl rfl rfl (by decide) rfl (by decide) (by decide) (by decide)
    (by decide)

/-- C4: for every type and every payload of length 0 or longer than `MaxChunk`, `Write`
returns the count 0 and an error and leaves the pipe, hence the wire, untouched; the error
for an empty payload differs from the error for an oversize payload. -/
theorem Write_rejects (cfg : Config) (c : Pipe) (typ : Nat) (chunk : List Nat)
    (h : chunk.length = 0 ∨ chunk.length > cfg.MaxChunk) :
    ∃ err : String, c.Write cfg typ chunk = ((0, some err), c) ∧
      (chunk.length = 0 → err = "Refusing to send a chunk of size 0.") ∧
      (chunk.length > cfg.MaxChunk → err = "Chunk size overflows header buffer.") ∧
      "Refusing to send a chunk of size 0." ≠ "Chunk size overflows header buffer." := by
  by_cases hbig : chunk.length > cfg.MaxChunk
  · refine ⟨"Chunk size overflows header buffer.", ?_, ?_, ?_, by decide⟩
    · simp [Pipe.Write, hbig]
    · intro h0; omega
    · intro _; rfl
  · have h0 : chunk.length = 0 := by omega
    refine ⟨"Refusing to send a chunk of size 0.", ?_, ?_, ?_, by decide⟩
    · simp [Pipe.Write, h0]
    · intro _; rfl
    · intro hb; exact absurd hb hbig

/-- Witness of C4: an empty payload. -/
theorem Write_rejects_witness :
    ∃ err : String, (createPipe (Conn.fresh [] []) 0).Write sampleConfig 100 [] =
        ((0, some err), createPipe (Conn.fresh [] []) 0) ∧
      (([] : List Nat).length = 0 → err = "Refusing to send a chunk of size 0.") ∧
      (([] : List Nat).length > sampleConfig.MaxChunk →
        err = "Chunk size overflows header buffer.") ∧
      "Refusing to send a chunk of size 0." ≠ "Chunk size overflows header buffer." :=
  Write_rejects sampleConfig (createPipe (Conn.fresh [] []) 0) 100 [] (Or.inl rfl)

/-- C5: for every payload, a frame of a type other than `TPubSub` makes `pubSub` call
`Emit` not at all, without a fault. For a frame of type `TPubSub` whose payload decodes to
the non-empty array `[k, a1, ..., aN]`, `pubSub` calls `Emit` exactly once, with the key
`k` and the arguments `(this, a1, ..., aN)` in this order, which is `(this)` when `N = 0`;
it ends without a fault of its own, that is unless this one call of `Emit` panics, which it
does when `k` is a JSON array or object, a key Go cannot hash. -/
theorem pubSub_emits (cfg : Config) (unmarshal : List Nat → Except String (List Value))
    (chunk : List Nat) :
    (∀ typ, typ ≠ cfg.TPubSub →
      pubSub cfg unmarshal typ chunk = { calls := [], fault := none }) ∧
    (∀ (k : Value) (args : List Value), unmarshal chunk = .ok (k :: args) →
      (pubSub cfg unmarshal cfg.TPubSub chunk).calls = [⟨k, Arg.pipe :: args.map Arg.val⟩] ∧
      (args = [] → (pubSub cfg unmarshal cfg.TPubSub chunk).calls = [⟨k, [Arg.pipe]⟩]) ∧
      (k.hashable = true → (pubSub cfg unmarshal cfg.TPubSub chunk).fault = none) ∧
      (k.hashable = false →
        (pubSub cfg unmarshal cfg.TPubSub chunk).fault = some Fault.hashOfUnhashableType)) := by
  refine ⟨fun typ h => by simp [pubSub, h], ?_⟩
  intro k args hdec
  have hcalls : (pubSub cfg unmarshal cfg.TPubSub chunk).calls =
      [⟨k, Arg.pipe :: args.map Arg.val⟩] := by
    cases args with
    | nil => simp [pubSub, hdec, Emission.Emit]
    | cons a rest => simp [pubSub, hdec, Emission.Emit]
  have hfault : (pubSub cfg unmarshal cfg.TPubSub chunk).fault =
      if k.hashable then none else some Fault.hashOfUnhashableType := by
    cases args with
    | nil => simp [pubSub, hdec, Emission.Emit]
    | cons a rest => simp [pubSub, hdec, Emission.Emit]
  refine ⟨hcalls, ?_, ?_, ?_⟩
  · intro h
    rw [hcalls, h]
    rfl
  · intro h
    rw [hfault, h]
    rfl
  · intro h
    rw [hfault, h]
    rfl

/-- Witness of C5: a frame of type 100 with a payload that is no JSON, the two scenarios of
the specification, `("greet", "hello")` and `("ping-test")`, and the payload `[[1],2]`,
whose key cannot be hashed. -/
theorem pubSub_emits_witness :
    pubSub sampleConfig sampleUnmarshal 100 [255, 0] = { calls := [], fault := none } ∧
    ((pubSub sampleConfig sampleUnmarshal 3 greetPayload).calls =
        [⟨.string "greet", [Arg.pipe, Arg.val (.string "hello")]⟩] ∧
      (pubSub sampleConfig sampleUnmarshal 3 greetPayload).fault = none) ∧
    ((pubSub sampleConfig sampleUnmarshal 3 pingTestPayload).calls =
        [⟨.string "ping-test", [Arg.pipe]⟩] ∧
      (pubSub sampleConfig sampleUnmarshal 3 pingTestPayload).fault = none) ∧
    ((pubSub sampleConfig sampleUnmarshal 3 arrayKeyPayload).calls =
        [⟨.array [.number "1"], [Arg.pipe, Arg.val (.number "2")]⟩] ∧
      (pubSub sampleConfig sampleUnmarshal 3 arrayKeyPayload).fault =
        some Fault.hashOfUnhashableType) :=
  ⟨(pubSub_emits sampleConfig sampleUnmarshal [255, 0]).1 100 (by decide),
   ⟨((pubSub_emits sampleConfig sampleUnmarshal greetPayload).2
      (.string "greet") [.string "hello"] rfl).1,
    ((pubSub_emits sampleConfig sampleUnmarshal greetPayload).2
      (.string "greet") [.string "hello"] rfl).2.2.1 rfl⟩,
   ⟨((pubSub_emits sampleConfig sampleUnmarshal pingTestPayload).2
      (.string "ping-test") [] rfl).2.1 rfl,
    ((pubSub_emits sampleConfig sampleUnmarshal pingTestPayload).2
      (.string "ping-test") [] rfl).2.2.1 rfl⟩,
   ⟨((pubSub_emits sampleConfig sampleUnmarshal arrayKeyPayload).2
      (.array [.number "1"]) [.number "2"] rfl).1,
    ((pubSub_emits sampleConfig sampleUnmarshal arrayKeyPayload).2
      (.array [.number "1"]) [.number "2"] rfl).2.2.2 rfl⟩⟩

/-- C6 fails on the code. Whenever `readData(8)` returns a header whose first two bytes are
not `0x1F 0xFA`, on a pipe whose `pongs` channel is open, `routine` calls `Close` and goes
on: it branches on the type and ends in a panic, either sending on the closed channel
`pongs` (type `TPong`, after one `Close`) or closing it a second time (every other type,
in the second call of `Close`). -/
theorem routine_bad_sentinel (cfg : Config) (fuel : Nat) (p : Pipe) (hdr : List Nat)
    (hread : ∃ p1, p.readData 8 = some (.ok hdr, p1))
    (hbad : (Header.mk hdr).isValid = false) (hch : p.pongs.closed = false) :
    ∃ q f, routine cfg (fuel + 2) p = (q, .panicked f) ∧
      (f = Fault.sendOnClosedChannel ∧ q.closeCalls = p.closeCalls + 1 ∨
       f = Fault.closeOfClosedChannel ∧ q.closeCalls = p.closeCalls + 2) := by
  obtain ⟨p1, hread⟩ := hread
  obtain ⟨consumed, more, h1, h2, h3, h4, h5, h6, h7, h8, h9⟩ :=
    readData_spec p 8 _ p1 hread
  have hlen : 8 ≤ hdr.length := (h9 hdr rfl).2
  have hhf : headerFrom hdr = .ok ⟨hdr⟩ := by
    simp only [headerFrom]
    rw [if_neg (by omega)]
  have hp1 : p1.pongs.closed = false := by rw [h3]; exact hch
  have hcc1 : p1.closeCalls = p.closeCalls := by rw [h3]
  obtain ⟨p2, hclose, hc2, hp2, hcc2, _, _⟩ := Pipe.Close_open_spec p1 hp1
  rw [routine, hread]
  simp only [hhf, hbad, Bool.not_false, if_true, hclose]
  by_cases hL : (Header.mk hdr).getType = cfg.TLinger
  · simp only [hL, if_true]
    obtain ⟨q, hq, hcc, _⟩ := routine_closed_panics cfg fuel { p2 with linger := true } hc2 hp2
    refine ⟨q, _, hq, Or.inr ⟨rfl, ?_⟩⟩
    rw [hcc]; simp only; omega
  · simp only [hL, if_false]
    by_cases hP : (Header.mk hdr).getType = cfg.TPing
    · simp only [hP, if_true]
      obtain ⟨hf, hcl⟩ := Pipe.pong_frame cfg p2
      obtain ⟨q, hq, hcc, _⟩ := routine_closed_panics cfg fuel (p2.pong cfg)
        (hcl.trans hc2) (by rw [hf]; exact hp2)
      refine ⟨q, _, hq, Or.inr ⟨rfl, ?_⟩⟩
      rw [hcc, hf]; simp only; omega
    · simp only [hP, if_false]
      by_cases hO : (Header.mk hdr).getType = cfg.TPong
      · simp only [hO, if_true, Chan.send, hp2]
        refine ⟨_, _, rfl, Or.inl ⟨rfl, ?_⟩⟩
        omega
      · simp only [hO, if_false]
        by_cases hz : (Header.mk hdr).chunkSize = 0
        · obtain ⟨c', hr, hf, hcl⟩ := readData_zero p2
          rw [hz, hr]
          simp only
          obtain ⟨q, hq, hcc, _⟩ := routine_closed_panics cfg fuel
            { c' with handled := c'.handled ++ [((Header.mk hdr).getType, [])] }
            (hcl.trans hc2) (by rw [hf]; exact hp2)
          refine ⟨q, _, hq, Or.inr ⟨rfl, ?_⟩⟩
          rw [hcc]; simp only; rw [hf]; simp only; omega
        · obtain ⟨e, c', hr, hf, hcl⟩ := readData_closed p2 (Header.mk hdr).chunkSize hc2
            (by omega)
          rw [hr]
          have hpc : c'.pongs.closed = true := by rw [hf]; exact hp2
          simp only [Pipe.Close_closed c' hpc]
          refine ⟨_, _, rfl, Or.inr ⟨rfl, ?_⟩⟩
          simp only; rw [hf]; simp only; omega

/-- Witness of C6's failure: the header `00 00 00 64 00 00 00 00`. -/
theorem routine_bad_sentinel_witness :
    ∃ q f, routine sampleConfig 2
        (createPipe (Conn.fresh [0, 0, 0, 100, 0, 0, 0, 0] []) 0) = (q, .panicked f) ∧
      (f = Fault.sendOnClosedChannel ∧ q.closeCalls = 1 ∨
       f = Fault.closeOfClosedChannel ∧ q.closeCalls = 2) :=
  routine_bad_sentinel sampleConfig 0 (createPipe (Conn.fresh [0, 0, 0, 100, 0, 0, 0, 0] []) 0)
    [0, 0, 0, 100, 0, 0, 0, 0] ⟨_, rfl⟩ rfl rfl

/-- C7 fails on the code. On an open connection, whatever the linger flag, every read that
`readData(8)` issues for a header is made under the read deadline `now + minTimeout`, and
at least one read is issued: the deadline `now + maxTimeout` set for a lingering pipe is
replaced inside the loop before the first read. -/
theorem readData_header_deadline (c : Pipe) (hopen : c.conn.closed = false) :
    ∃ r c' more, c.readData 8 = some (r, c') ∧ c'.conn.calls = c.conn.calls ++ more ∧
      more ≠ [] ∧ (∀ x ∈ more, x = Call.read 8 (some (c.now + minTimeout))) ∧
      c.now + minTimeout ≠ c.now + maxTimeout := by
  obtain ⟨r, c', h⟩ := readData_isSome c 8
  obtain ⟨_, more, _, h2, _, _, _, _, h7, h8, _⟩ := readData_spec c 8 r c' h
  exact ⟨r, c', more, h, h2, h8 (by omega), h7 hopen, by simp [minTimeout, maxTimeout]⟩

/-- Witness of C7's failure: a pipe whose linger flag is true. -/
theorem readData_header_deadline_witness :
    ∃ r c' more,
      ({ createPipe (Conn.fresh [0x1F, 0xFA, 0, 0, 0, 0, 0, 0] []) 1000 with
          linger := true } : Pipe).readData 8 = some (r, c') ∧
      c'.conn.calls = [] ++ more ∧ more ≠ [] ∧
      (∀ x ∈ more, x = Call.read 8 (some (1000 + minTimeout))) ∧
      1000 + minTimeout ≠ 1000 + maxTimeout :=
  readData_header_deadline
    { createPipe (Conn.fresh [0x1F, 0xFA, 0, 0, 0, 0, 0, 0] []) 1000 with linger := true } rfl

/-- C8 fails on the code. For a frame of type `TPubSub` whose payload fails to decode,
`pubSub` drops the error and then indexes the empty slice `a`: it calls `Emit` not at all
and panics with a bounds error instead of completing. -/
theorem pubSub_decode_failure (cfg : Config)
    (unmarshal : List Nat → Except String (List Value)) (chunk : List Nat) (e : String)
    (hfail : unmarshal chunk = .error e) :
    pubSub cfg unmarshal cfg.TPubSub chunk =
      { calls := [], fault := some Fault.indexOutOfRange } := by
  simp [pubSub, hfail]

/-- Witness of C8's failure: the malformed payload of one opening brace. -/
theorem pubSub_decode_failure_witness :
    pubSub sampleConfig sampleUnmarshal 3 [123] =
      { calls := [], fault := some Fault.indexOutOfRange } :=
  pubSub_decode_failure sampleConfig sampleUnmarshal [123] "invalid character" rfl

/-- C9 fails on the code. With 1024 bytes pending and every read returning all it is asked
for, `readData(600)` returns all 1024 bytes, 424 more than requested; with 12 bytes pending
and reads of 3 then 8 bytes, `readData(8)` returns 11 bytes. -/
theorem readData_overreads :
    ((createPipe (Conn.fresh (List.replicate 1024 7) []) 0).readData 600).map
        (fun r => (r.1.toOption.map List.length, r.2.conn.incoming.length)) =
      some (some 1024, 0) ∧
    ((createPipe (Conn.fresh [1, 2, 3, 4, 5, 6, 7, 8, 9, 10, 11, 12] [3, 8]) 0).readData 8).map
        (fun r => (r.1.toOption, r.2.conn.incoming)) =
      some (some [1, 2, 3, 4, 5, 6, 7, 8, 9, 10, 11], [12]) := by
  decide!

/-- C10 fails on the code. On an open connection `writeData(b)` leaves the write deadline
as it was and makes the `Write` call under it; the deadline it sets to
`now + writeTimeout` is the read deadline. -/
theorem writeData_deadline (c : Pipe) (b : List Nat) (hopen : c.conn.closed = false) :
    (c.writeData b).2.conn.writeDeadline = c.conn.writeDeadline ∧
    (c.writeData b).2.conn.readDeadline = some (c.now + writeTimeout) ∧
    (c.writeData b).2.conn.calls = c.conn.calls ++ [Call.write b c.conn.writeDeadline] := by
  simp [Pipe.writeData, Pipe.setWriteDeadLine, Conn.SetReadDeadline, Conn.Write, hopen]

/-- Witness of C10's failure: the first write on a fresh connection is made with no write
deadline at all. -/
theorem writeData_deadline_witness :
    ((createPipe (Conn.fresh [] []) 1000).writeData [1, 2]).2.conn.writeDeadline = none ∧
    ((createPipe (Conn.fresh [] []) 1000).writeData [1, 2]).2.conn.readDeadline =
      some (1000 + writeTimeout) ∧
    ((createPipe (Conn.fresh [] []) 1000).writeData [1, 2]).2.conn.calls =
      [Call.write [1, 2] none] :=
  writeData_deadline (createPipe (Conn.fresh [] []) 1000) [1, 2] rfl

end Network
